import Mathlib

/-!
Collage: register, login and e-mail one-time codes (`server.js`)

A shallow embedding of the four POST handlers of `server.js` and of the
JavaScript operations they rely on:

* the in-memory `otpStore` object (own properties over `Object.prototype`),
* the code generator `Math.floor(100000 + Math.random() * 900000).toString()`
  in IEEE-754 double precision (round to nearest, ties to even),
* the `Student` collection with its `required` and `unique` schema options,
* the handlers `/send-otp`, `/verify-otp`, `/login` and `/register`.

Request body fields are modelled as absent (`undefined`) or string-valued;
the password of `/login`, which goes to `bcrypt.compare` as it is, ranges over
all primitive JSON values. Failures of the database connection and of the
process itself are not modelled; the outcome of the mail transport is an input
of `/send-otp`.
-/

namespace Collage

/-! ## Requests and replies -/

/-- A field destructured from `req.body`: `none` is `undefined` (the field is
absent), `some s` is the string `s`. -/
abbrev Field := Option String

/-- The test `!x` on a body field: `undefined` and the empty string are falsy. -/
def falsy : Field → Bool
  | none => true
  | some s => s == ""

/-- The property key a body field is converted to by `obj[x]`. -/
def toPropertyKey : Field → String
  | none => "undefined"
  | some s => s

/-- Values occurring in the JSON bodies the handlers send. -/
inductive Json where
  | str (s : String)
  | bool (b : Bool)
  deriving DecidableEq, Repr

/-- What a handler sends back: `res.status(n).send(text)`,
`res.status(n).json(body)` (status 200 when `res.json` is called directly) or
`res.redirect(location)` (status 302). -/
inductive Reply where
  | send (status : Nat) (text : String)
  | json (status : Nat) (body : List (String × Json))
  | redirect (status : Nat) (location : String)
  deriving DecidableEq, Repr

/-- The HTTP status of a reply. -/
def Reply.status : Reply → Nat
  | .send n _ => n
  | .json n _ => n
  | .redirect n _ => n

/-! ## The object `otpStore` -/

/-- The own properties of `otpStore`: a string value per property key. Only
strings are ever assigned by the handlers. -/
abbrev OtpStore := String → Option String

/-- The initial value of the store, the object literal without properties. -/
def emptyStore : OtpStore := fun _ => none

/-- The property names of `Object.prototype`, the prototype of `otpStore`. -/
def objectPrototypeKeys : List String :=
  ["constructor", "__defineGetter__", "__defineSetter__", "hasOwnProperty",
   "__lookupGetter__", "__lookupSetter__", "isPrototypeOf", "propertyIsEnumerable",
   "toString", "valueOf", "__proto__", "toLocaleString"]

/-- The result of reading `otpStore[key]`. -/
inductive PropValue where
  | undefined
  | str (s : String)
  | builtin
  deriving DecidableEq, Repr

/-- Reading `otpStore[key]`: an own property wins, otherwise the member of
`Object.prototype` of that name (a function or the prototype object itself,
here `builtin`), otherwise `undefined`. -/
def getProp (store : OtpStore) (key : String) : PropValue :=
  match store key with
  | some v => .str v
  | none => if key ∈ objectPrototypeKeys then .builtin else .undefined

/-- Truthiness of a value read from the store. -/
def PropValue.truthy : PropValue → Bool
  | .undefined => false
  | .str s => s != ""
  | .builtin => true

/-- Strict equality `v === x` of a value read from the store with a body
field: no member of `Object.prototype` is identical to a parsed body value. -/
def PropValue.strictEq : PropValue → Field → Bool
  | .undefined, none => true
  | .str s, some t => s == t
  | _, _ => false

/-- The assignment `otpStore[key] = value` with a string value: an own
property is overwritten; without an own property the key `__proto__` reaches
the inherited setter, which ignores a value that is neither an object nor
`null`; any other key gets a new own property. -/
def setProp (store : OtpStore) (key value : String) : OtpStore :=
  if store key = none ∧ key = "__proto__" then store
  else fun k => if k = key then some value else store k

/-- The statement `delete otpStore[key]`: the own property, if any, is removed. -/
def deleteProp (store : OtpStore) (key : String) : OtpStore :=
  fun k => if k = key then none else store k

/-! ## Double-precision arithmetic of the code generator

Finite doubles are the rationals fixed by `roundDouble`. Overflow to an
infinity is not represented: every operand below stays under `2 ^ 20`. -/

/-- The binary exponent of a non-zero rational as a double: the `e` with
`2 ^ e ≤ |x| < 2 ^ (e + 1)`, and `-1022` for the subnormal range below. -/
def exponent (x : ℚ) : ℤ := max (Int.log 2 |x|) (-1022)

/-- Spacing of the doubles around a non-zero rational: 52 fraction bits below
its exponent, which is `2 ^ (-1074)` in the subnormal range. -/
def ulp (x : ℚ) : ℚ := (2 : ℚ) ^ (exponent x - 52)

/-- Nearest integer, ties to the even one. -/
def roundHalfEven (y : ℚ) : ℤ :=
  if 2 * (y - ⌊y⌋) < 1 then ⌊y⌋
  else if 1 < 2 * (y - ⌊y⌋) then ⌊y⌋ + 1
  else if ⌊y⌋ % 2 = 0 then ⌊y⌋ else ⌊y⌋ + 1

/-- The double nearest to a rational (round to nearest, ties to even). -/
def roundDouble (x : ℚ) : ℚ :=
  if x = 0 then 0 else roundHalfEven (x / ulp x) * ulp x

/-- A rational that is exactly a double. -/
def isDouble (x : ℚ) : Prop := roundDouble x = x

instance (x : ℚ) : Decidable (isDouble x) := by
  unfold isDouble; infer_instance

/-- The expression `Math.floor(100000 + r * 900000).toString()` for the value
`r` returned by `Math.random()`: a double product, a double sum, the floor, and
the decimal rendering of the resulting integer. -/
def otpOfDraw (r : ℚ) : String :=
  toString ⌊roundDouble (100000 + roundDouble (r * 900000))⌋

/-! ## The OTP handlers -/

/-- Handler `app.post('/send-otp')`. `r` is the value of `Math.random()` and
`mailOk` tells whether `transporter.sendMail` resolved. The code is stored
before the mail is sent and stays stored when sending fails. -/
def sendOtp (store : OtpStore) (email : Field) (r : ℚ) (mailOk : Bool) :
    Reply × OtpStore :=
  if falsy email then (.json 400 [("error", .str "Email is required")], store)
  else
    let otp := otpOfDraw r
    let store1 := setProp store (toPropertyKey email) otp
    if mailOk then (.json 200 [("message", .str "OTP sent!")], store1)
    else (.json 500 [("error", .str "Failed to send OTP")], store1)

/-- The success reply of `/verify-otp`, sent with `res.json` (status 200). -/
def otpVerified : Reply :=
  .json 200 [("success", .bool true), ("message", .str "OTP verified!")]

/-- The failure reply of `/verify-otp`, sent with `res.status(400).json`. -/
def invalidOtp : Reply :=
  .json 400 [("success", .bool false), ("message", .str "Invalid OTP")]

/-- Handler `app.post('/verify-otp')`. -/
def verifyOtp (store : OtpStore) (email otp : Field) : Reply × OtpStore :=
  if (getProp store (toPropertyKey email)).truthy
      && (getProp store (toPropertyKey email)).strictEq otp then
    (otpVerified, deleteProp store (toPropertyKey email))
  else (invalidOtp, store)

/-- A registry with one pending code, for concrete evaluation. -/
def sampleStore : OtpStore :=
  fun k => if k = "a@x.com" then some "654321" else none

/-- The registry states reachable from the empty object through requests to
the two OTP handlers. -/
inductive Reachable : OtpStore → Prop where
  | init : Reachable emptyStore
  | send (store : OtpStore) (email : Field) (r : ℚ) (mailOk : Bool) :
      Reachable store → isDouble r → 0 ≤ r → r < 1 →
      Reachable (sendOtp store email r mailOk).2
  | verify (store : OtpStore) (email otp : Field) :
      Reachable store → Reachable (verifyOtp store email otp).2

/-! ## The `Student` collection -/

/-- A document of the `Student` model. `password` holds the bcrypt hash. -/
structure Student where
  username : String
  password : String
  email : String
  deriving DecidableEq, Repr

/-- The documents of the collection, in insertion order. -/
abbrev Collection := List Student

/-- The query `Student.findOne` by `username`, with a string. -/
def findOne (db : Collection) (username : String) : Option Student :=
  db.find? (fun s => s.username == username)

/-- Why `save()` rejects. -/
inductive SaveError where
  | validation
  | duplicateKey
  deriving DecidableEq, Repr

/-- The call `newUser.save()` under `studentSchema`: every path is `required`
(an empty string fails validation), and `username` and `email` carry a
`unique` index, so a document sharing either with a stored one is refused with
a duplicate-key error. Otherwise the document is inserted. -/
def save (db : Collection) (doc : Student) : Except SaveError Collection :=
  if doc.username = "" ∨ doc.password = "" ∨ doc.email = "" then .error .validation
  else if db.any (fun s => s.username == doc.username || s.email == doc.email) then
    .error .duplicateKey
  else .ok (db ++ [doc])

/-- The constraints `studentSchema` maintains on the collection: all three
paths non-empty, no two documents with one username, no two with one email. -/
def validCollection (db : Collection) : Prop :=
  (∀ s ∈ db, s.username ≠ "" ∧ s.password ≠ "" ∧ s.email ≠ "") ∧
  (db.map Student.username).Nodup ∧ (db.map Student.email).Nodup

instance (db : Collection) : Decidable (validCollection db) := by
  unfold validCollection; infer_instance

/-- The two bcrypt operations the handlers call. `hash plaintext rounds salt`
is `bcrypt.hash` with the salt it drew made explicit; `compare plaintext hash`
is `bcrypt.compare`. A bcrypt hash is a 60-character string, in particular
never empty. -/
structure Hasher where
  hash : String → Nat → String → String
  compare : String → String → Bool
  hash_ne : ∀ p n s, hash p n s ≠ ""

/-! ## The credential handlers -/

/-- A primitive value of a parsed body field: `undefined` for an absent
field, `null`, a boolean, a number (every finite double is a rational) or a
string. -/
inductive Value where
  | undefined
  | null
  | bool (b : Bool)
  | num (q : ℚ)
  | str (s : String)
  deriving DecidableEq

/-- The test `!x` on a primitive value: `undefined`, `null`, `false`, zero and
the empty string are falsy. -/
def Value.falsy : Value → Bool
  | .undefined => true
  | .null => true
  | .bool b => !b
  | .num q => q == 0
  | .str s => s == ""

/-- The call `bcrypt.compare(password, hash)` awaited inside `try`: with a
string password the promise resolves to the comparison result; with a value of
any other type bcrypt refuses its arguments and the promise rejects (`none`). -/
def bcryptCompare (H : Hasher) (password : Value) (hash : String) : Option Bool :=
  match password with
  | .str p => some (H.compare p hash)
  | _ => none

/-- Handler `app.post('/login')`. The username is a string or absent (a
primitive of another type is cast by the query to its string form and behaves
as that string); the password is any primitive value. A rejection inside
`try` is caught and answered with status 500 `Server error`. -/
def login (H : Hasher) (db : Collection) (username : Field) (password : Value) : Reply :=
  if falsy username || password.falsy then .send 400 "Username and password required"
  else
    match findOne db (toPropertyKey username) with
    | none => .send 401 "Invalid username or password"
    | some student =>
      match bcryptCompare H password student.password with
      | none => .send 500 "Server error"
      | some isMatch =>
        if !isMatch then .send 401 "Invalid username or password"
        else .redirect 302 "/dashboard"

/-- Handler `app.post('/register')`. `salt` is the salt `bcrypt.hash` draws.
Whatever `save()` throws is caught and answered with status 500. -/
def register (H : Hasher) (db : Collection) (username password email : Field)
    (salt : String) : Reply × Collection :=
  if falsy username || falsy password || falsy email then
    (.json 400 [("error", .str "All fields required")], db)
  else
    match findOne db (toPropertyKey username) with
    | some _ => (.json 409 [("error", .str "Username already exists")], db)
    | none =>
      let hashedPassword := H.hash (toPropertyKey password) 10 salt
      match save db ⟨toPropertyKey username, hashedPassword, toPropertyKey email⟩ with
      | .ok db1 => (.json 200 [("message", .str "Registration successful!")], db1)
      | .error _ => (.json 500 [("error", .str "Server error")], db)

/-- A stand-in hasher for concrete evaluation: the hash is the plaintext
behind a marker, and comparison recomputes it. -/
def markerHasher : Hasher where
  hash := fun p _ _ => "#" ++ p
  compare := fun p h => h == "#" ++ p
  hash_ne := by
    intro p _ _ h
    have hlen := congrArg String.length h
    simp [String.length_append] at hlen
    exact absurd hlen.1 (by decide)

/-! ## Rounding to a double -/

theorem ulp_pos (x : ℚ) : 0 < ulp x := by
  unfold ulp; positivity

theorem floor_le_roundHalfEven (y : ℚ) : ⌊y⌋ ≤ roundHalfEven y := by
  unfold roundHalfEven
  split_ifs <;> omega

theorem roundHalfEven_le_floor_succ (y : ℚ) : roundHalfEven y ≤ ⌊y⌋ + 1 := by
  unfold roundHalfEven
  split_ifs <;> omega

theorem roundHalfEven_intCast (k : ℤ) : roundHalfEven (k : ℚ) = k := by
  unfold roundHalfEven
  simp

theorem roundHalfEven_le_add_half (y : ℚ) : (roundHalfEven y : ℚ) ≤ y + 1 / 2 := by
  have hfl : (⌊y⌋ : ℚ) ≤ y := Int.floor_le y
  unfold roundHalfEven
  split_ifs with h1 h2 h3
  · linarith
  · push_cast; linarith
  · linarith
  · push_cast; linarith

theorem le_roundHalfEven (k : ℤ) (y : ℚ) (h : (k : ℚ) ≤ y) : k ≤ roundHalfEven y :=
  le_trans (Int.le_floor.mpr h) (floor_le_roundHalfEven y)

theorem roundHalfEven_le (k : ℤ) (y : ℚ) (h : y < k + 1 / 2) : roundHalfEven y ≤ k := by
  have h1 := roundHalfEven_le_add_half y
  have h2 : (roundHalfEven y : ℚ) < ((k + 1 : ℤ) : ℚ) := by push_cast; linarith
  have h3 : roundHalfEven y < k + 1 := by exact_mod_cast h2
  omega

theorem le_roundDouble (x : ℚ) (k : ℤ) (hx : x ≠ 0) (h : (k : ℚ) * ulp x ≤ x) :
    (k : ℚ) * ulp x ≤ roundDouble x := by
  have hu := ulp_pos x
  unfold roundDouble
  rw [if_neg hx]
  have hk : (k : ℚ) ≤ x / ulp x := by rwa [le_div_iff₀ hu]
  have := le_roundHalfEven k _ hk
  have hc : (k : ℚ) ≤ (roundHalfEven (x / ulp x) : ℚ) := by exact_mod_cast this
  exact mul_le_mul_of_nonneg_right hc hu.le

theorem roundDouble_le (x : ℚ) (k : ℤ) (hx : x ≠ 0) (h : x < (k : ℚ) * ulp x + ulp x / 2) :
    roundDouble x ≤ (k : ℚ) * ulp x := by
  have hu := ulp_pos x
  unfold roundDouble
  rw [if_neg hx]
  have hk : x / ulp x < (k : ℚ) + 1 / 2 := by
    rw [div_lt_iff₀ hu]; linarith
  have := roundHalfEven_le k _ hk
  have hc : (roundHalfEven (x / ulp x) : ℚ) ≤ (k : ℚ) := by exact_mod_cast this
  exact mul_le_mul_of_nonneg_right hc hu.le

theorem exponent_le (x : ℚ) (E : ℤ) (hx : 0 < x) (hlt : x < (2 : ℚ) ^ (E + 1))
    (hE : -1022 ≤ E) : exponent x ≤ E := by
  unfold exponent
  rw [abs_of_pos hx]
  have h := (Int.lt_zpow_iff_log_lt (b := 2) (by norm_num) hx).mp (by exact_mod_cast hlt)
  exact max_le (by omega) hE

/-- A dyadic rational `m / 2 ^ j` is an integer multiple of the spacing `ulp x`
whenever the exponent of `x` is at most `52 - j`. -/
theorem dyadic_multiple (x : ℚ) (m : ℤ) (j : ℕ) (h : exponent x ≤ 52 - j) :
    ∃ k : ℤ, (m : ℚ) / 2 ^ j = (k : ℚ) * ulp x := by
  refine ⟨m * 2 ^ (52 - (j : ℤ) - exponent x).toNat, ?_⟩
  have hnn : 0 ≤ 52 - (j : ℤ) - exponent x := by omega
  have h2 : ((2 : ℚ) ^ (52 - (j : ℤ) - exponent x).toNat) = (2 : ℚ) ^ (52 - (j : ℤ) - exponent x) := by
    rw [← zpow_natCast, Int.toNat_of_nonneg hnn]
  unfold ulp
  push_cast
  rw [h2, mul_assoc, ← zpow_add₀ (by norm_num : (2 : ℚ) ≠ 0)]
  have : 52 - (j : ℤ) - exponent x + (exponent x - 52) = -(j : ℤ) := by ring
  rw [this, zpow_neg, zpow_natCast, div_eq_mul_inv]

theorem roundDouble_mem_Icc (x : ℚ) (ma mb : ℤ) (j : ℕ) (hx : 0 < x)
    (hexp : exponent x ≤ 52 - j) (ha : (ma : ℚ) / 2 ^ j ≤ x) (hb : x ≤ (mb : ℚ) / 2 ^ j) :
    (ma : ℚ) / 2 ^ j ≤ roundDouble x ∧ roundDouble x ≤ (mb : ℚ) / 2 ^ j := by
  obtain ⟨ka, hka⟩ := dyadic_multiple x ma j hexp
  obtain ⟨kb, hkb⟩ := dyadic_multiple x mb j hexp
  have hu := ulp_pos x
  constructor
  · rw [hka]; exact le_roundDouble x ka hx.ne' (by rw [← hka]; exact ha)
  · rw [hkb]; exact roundDouble_le x kb hx.ne' (by rw [← hkb]; linarith)

theorem log_le_exponent (x : ℚ) : Int.log 2 |x| ≤ exponent x := le_max_left _ _

theorem lt_zpow_of_exponent_le (x : ℚ) (E : ℤ) (hx : 0 < x) (h : exponent x ≤ E) :
    x < (2 : ℚ) ^ (E + 1) := by
  have hl := log_le_exponent x
  rw [abs_of_pos hx] at hl
  have := (Int.lt_zpow_iff_log_lt (b := 2) (R := ℚ) (by norm_num) hx (x := E + 1)).mpr (by omega)
  exact_mod_cast this

theorem draw_le (r : ℚ) (hd : isDouble r) (h1 : r < 1) : r ≤ 1 - 1 / 2 ^ 53 := by
  rcases lt_trichotomy r 0 with hneg | hz | hpos
  · have : (0 : ℚ) ≤ 1 - 1 / 2 ^ 53 := by norm_num
    linarith
  · rw [hz]; norm_num
  · have he : exponent r ≤ -1 := exponent_le r (-1) hpos (by simpa using h1) (by norm_num)
    rcases eq_or_lt_of_le he with heq | hlt
    · unfold isDouble roundDouble at hd
      rw [if_neg hpos.ne'] at hd
      have hu : ulp r = 1 / 2 ^ 53 := by
        unfold ulp; rw [heq]; norm_num [zpow_neg]
      rw [hu] at hd
      set K := roundHalfEven (r / (1 / 2 ^ 53)) with hK
      have hlt2 : (K : ℚ) < ((2 ^ 53 : ℤ) : ℚ) := by
        push_cast
        have : (K : ℚ) * (1 / 2 ^ 53) < 1 := by rw [hd]; exact h1
        rw [mul_one_div, div_lt_iff₀ (by positivity)] at this
        linarith
      have hK2 : K < 2 ^ 53 := by exact_mod_cast hlt2
      have hK3 : K ≤ 2 ^ 53 - 1 := by omega
      have hK4 : (K : ℚ) ≤ 2 ^ 53 - 1 := by exact_mod_cast hK3
      rw [← hd]
      have : (K : ℚ) * (1 / 2 ^ 53) ≤ (2 ^ 53 - 1) * (1 / 2 ^ 53) :=
        mul_le_mul_of_nonneg_right hK4 (by positivity)
      calc (K : ℚ) * (1 / 2 ^ 53) ≤ (2 ^ 53 - 1) * (1 / 2 ^ 53) := this
        _ = 1 - 1 / 2 ^ 53 := by norm_num
    · have := lt_zpow_of_exponent_le r (-2) hpos (by omega)
      norm_num [zpow_neg] at this
      have : (1 : ℚ) / 2 ≤ 1 - 1 / 2 ^ 53 := by norm_num
      linarith

theorem product_bounds (r : ℚ) (h0 : 0 ≤ r) (hr : r ≤ 1 - 1 / 2 ^ 53) :
    0 ≤ roundDouble (r * 900000) ∧ roundDouble (r * 900000) ≤ 900000 - 1 / 2 ^ 33 := by
  rcases eq_or_lt_of_le h0 with hz | hpos
  · rw [← hz]; norm_num [roundDouble]
  · have hx : 0 < r * 900000 := by positivity
    have hxle : r * 900000 ≤ 900000 - 900000 / 2 ^ 53 := by linarith
    have he : exponent (r * 900000) ≤ 19 :=
      exponent_le _ 19 hx (by norm_num at hxle ⊢; linarith) (by norm_num)
    constructor
    · have := le_roundDouble (r * 900000) 0 hx.ne' (by simpa using hx.le)
      simpa using this
    · obtain ⟨k, hk⟩ := dyadic_multiple (r * 900000) (900000 * 2 ^ 33 - 1) 33 (by simpa using he)
      have hb : (900000 : ℚ) - 1 / 2 ^ 33 = (k : ℚ) * ulp (r * 900000) := by
        rw [← hk]; norm_num
      rw [hb]
      apply roundDouble_le _ k hx.ne'
      rw [← hb]
      rcases eq_or_lt_of_le he with heq | hlt
      · have hu : ulp (r * 900000) = 1 / 2 ^ 33 := by
          unfold ulp; rw [heq]; norm_num [zpow_neg]
        rw [hu]; norm_num at hxle ⊢; linarith
      · have := lt_zpow_of_exponent_le (r * 900000) 18 hx (by omega)
        have hu := ulp_pos (r * 900000)
        norm_num at this ⊢
        linarith

theorem sum_bounds (p : ℚ) (h0 : 0 ≤ p) (hp : p ≤ 900000 - 1 / 2 ^ 33) :
    100000 ≤ roundDouble (100000 + p) ∧ roundDouble (100000 + p) ≤ 1000000 - 1 / 2 ^ 33 := by
  have hx : (0 : ℚ) < 100000 + p := by linarith
  have he : exponent (100000 + p) ≤ 19 :=
    exponent_le _ 19 hx (by norm_num at hp ⊢; linarith) (by norm_num)
  have := roundDouble_mem_Icc (100000 + p) (100000 * 2 ^ 33) (1000000 * 2 ^ 33 - 1) 33 hx
    (by simpa using he) (by norm_num; linarith) (by norm_num at hp ⊢; linarith)
  norm_num at this ⊢
  exact this

theorem floor_bounds (r : ℚ) (hd : isDouble r) (h0 : 0 ≤ r) (h1 : r < 1) :
    100000 ≤ ⌊roundDouble (100000 + roundDouble (r * 900000))⌋ ∧
    ⌊roundDouble (100000 + roundDouble (r * 900000))⌋ ≤ 999999 := by
  obtain ⟨hp0, hp1⟩ := product_bounds r h0 (draw_le r hd h1)
  obtain ⟨hs0, hs1⟩ := sum_bounds _ hp0 hp1
  constructor
  · exact Int.le_floor.mpr (by exact_mod_cast hs0)
  · have : ⌊roundDouble (100000 + roundDouble (r * 900000))⌋ < 1000000 := by
      rw [Int.floor_lt]
      have : (0 : ℚ) < 1 / 2 ^ 33 := by positivity
      push_cast; linarith
    omega

theorem isDouble_of_dyadic (m : ℤ) (j : ℕ) (h : exponent ((m : ℚ) / 2 ^ j) ≤ 52 - j) :
    isDouble ((m : ℚ) / 2 ^ j) := by
  obtain ⟨k, hk⟩ := dyadic_multiple ((m : ℚ) / 2 ^ j) m j h
  have hu := ulp_pos ((m : ℚ) / 2 ^ j)
  unfold isDouble roundDouble
  split_ifs with hz
  · exact hz.symm
  · have : (m : ℚ) / 2 ^ j / ulp ((m : ℚ) / 2 ^ j) = (k : ℚ) := by
      rw [div_eq_iff hu.ne']; exact hk
    rw [this, roundHalfEven_intCast, ← hk]

theorem toDigits_six (n : ℕ) (h0 : 100000 ≤ n) (h1 : n ≤ 999999) :
    Nat.toDigits 10 n =
      [Nat.digitChar (n / 100000), Nat.digitChar (n / 10000 % 10),
       Nat.digitChar (n / 1000 % 10), Nat.digitChar (n / 100 % 10),
       Nat.digitChar (n / 10 % 10), Nat.digitChar (n % 10)] := by
  obtain ⟨f, hf⟩ : ∃ f, n + 1 = f + 6 := ⟨n - 5, by omega⟩
  unfold Nat.toDigits
  rw [hf]
  have e1 : n / 10 ≠ 0 := by omega
  have e2 : n / 10 / 10 ≠ 0 := by omega
  have e3 : n / 10 / 10 / 10 ≠ 0 := by omega
  have e4 : n / 10 / 10 / 10 / 10 ≠ 0 := by omega
  have e5 : n / 10 / 10 / 10 / 10 / 10 ≠ 0 := by omega
  have e6 : n / 10 / 10 / 10 / 10 / 10 / 10 = 0 := by omega
  simp only [Nat.toDigitsCore, e1, e2, e3, e4, e5, e6, if_true, if_false]
  have d1 : n / 10 / 10 / 10 / 10 / 10 % 10 = n / 100000 := by omega
  have d2 : n / 10 / 10 / 10 / 10 % 10 = n / 10000 % 10 := by omega
  have d3 : n / 10 / 10 / 10 % 10 = n / 1000 % 10 := by omega
  have d4 : n / 10 / 10 % 10 = n / 100 % 10 := by omega
  rw [d1, d2, d3, d4]

theorem digitChar_isDigit (d : ℕ) (h : d < 10) : (Nat.digitChar d).isDigit = true := by
  interval_cases d <;> decide

theorem digitChar_ne_zero (d : ℕ) (h0 : 1 ≤ d) (h : d < 10) : Nat.digitChar d ≠ '0' := by
  interval_cases d <;> decide

theorem toString_six (n : ℤ) (h0 : 100000 ≤ n) (h1 : n ≤ 999999) :
    toString n = String.mk
      [Nat.digitChar (n.toNat / 100000), Nat.digitChar (n.toNat / 10000 % 10),
       Nat.digitChar (n.toNat / 1000 % 10), Nat.digitChar (n.toNat / 100 % 10),
       Nat.digitChar (n.toNat / 10 % 10), Nat.digitChar (n.toNat % 10)] := by
  obtain ⟨m, rfl⟩ : ∃ m : ℕ, n = m := ⟨n.toNat, by omega⟩
  have hm0 : 100000 ≤ m := by omega
  have hm1 : m ≤ 999999 := by omega
  show Int.repr (m : ℤ) = _
  simp only [Int.repr, Int.toNat_ofNat, Nat.repr, List.asString]
  rw [toDigits_six m hm0 hm1]

theorem draw_exists (n : ℤ) (h0 : 100000 ≤ n) (h1 : n ≤ 999999) :
    ∃ r : ℚ, isDouble r ∧ 0 ≤ r ∧ r < 1 ∧
      ⌊roundDouble (100000 + roundDouble (r * 900000))⌋ = n := by
  -- the draw aims at the middle of the interval of products that floor to `n`
  obtain ⟨t, ht⟩ : ∃ t : ℚ, t = (n : ℚ) - 100000 + 1 / 2 := ⟨_, rfl⟩
  obtain ⟨K, hK⟩ : ∃ K : ℤ, K = ⌊t * 2 ^ 53 / 900000⌋ := ⟨_, rfl⟩
  have hn0 : (100000 : ℚ) ≤ n := by exact_mod_cast h0
  have hn1 : (n : ℚ) ≤ 999999 := by exact_mod_cast h1
  have hKle : (K : ℚ) ≤ t * 2 ^ 53 / 900000 := by rw [hK]; exact Int.floor_le _
  have hKgt : t * 2 ^ 53 / 900000 < (K : ℚ) + 1 := by rw [hK]; exact Int.lt_floor_add_one _
  have h53 : (2 : ℚ) ^ 53 = 9007199254740992 := by norm_num
  have hKpos : 0 < K := by
    rw [hK, Int.floor_pos]
    rw [le_div_iff₀ (by norm_num), h53]
    have : (1 : ℚ) / 2 ≤ t := by rw [ht]; linarith
    linarith
  have hKposq : (0 : ℚ) < K := by exact_mod_cast hKpos
  have hrpos : (0 : ℚ) < (K : ℚ) / 2 ^ 53 := by positivity
  have hrlt : (K : ℚ) / 2 ^ 53 < 1 := by
    rw [div_lt_one (by positivity)]
    have : t * 2 ^ 53 / 900000 < 2 ^ 53 := by
      rw [div_lt_iff₀ (by norm_num), h53]
      have : t < 900000 := by rw [ht]; linarith
      linarith
    linarith
  refine ⟨(K : ℚ) / 2 ^ 53, ?_, hrpos.le, hrlt, ?_⟩
  · apply isDouble_of_dyadic
    have := exponent_le _ (-1) hrpos (by simpa using hrlt) (by norm_num)
    push_cast; omega
  · have hx1 : (K : ℚ) / 2 ^ 53 * 900000 ≤ t := by
      rw [div_mul_eq_mul_div, div_le_iff₀ (by positivity)]
      rw [le_div_iff₀ (by norm_num)] at hKle
      linarith
    have hx0 : (n : ℚ) - 100000 ≤ (K : ℚ) / 2 ^ 53 * 900000 := by
      rw [div_mul_eq_mul_div, le_div_iff₀ (by positivity)]
      rw [div_lt_iff₀ (by norm_num)] at hKgt
      have : t * 2 ^ 53 - 900000 < (K : ℚ) * 900000 := by linarith
      have h2 : ((n : ℚ) - 100000) * 2 ^ 53 ≤ t * 2 ^ 53 - 900000 := by
        rw [ht, h53]; linarith
      linarith
    have hx : (0 : ℚ) < (K : ℚ) / 2 ^ 53 * 900000 := by positivity
    have he : exponent ((K : ℚ) / 2 ^ 53 * 900000) ≤ 19 :=
      exponent_le _ 19 hx (by norm_num; rw [ht] at hx1; linarith) (by norm_num)
    have hp := roundDouble_mem_Icc _ (2 * (n - 100000)) (2 * (n - 100000) + 1) 1 hx
      (by push_cast; omega) (by push_cast; linarith) (by push_cast; rw [ht] at hx1; linarith)
    push_cast at hp
    obtain ⟨p, hpdef⟩ : ∃ p : ℚ, p = roundDouble ((K : ℚ) / 2 ^ 53 * 900000) := ⟨_, rfl⟩
    rw [← hpdef] at hp ⊢
    have hy : (0 : ℚ) < 100000 + p := by linarith [hp.1]
    have he2 : exponent (100000 + p) ≤ 19 :=
      exponent_le _ 19 hy (by norm_num; linarith [hp.2]) (by norm_num)
    have hs := roundDouble_mem_Icc _ (2 * n) (2 * n + 1) 1 hy
      (by push_cast; omega) (by push_cast; linarith [hp.1]) (by push_cast; linarith [hp.2])
    push_cast at hs
    rw [Int.floor_eq_iff]
    constructor
    · linarith [hs.1]
    · linarith [hs.2]

/-! ## Decimal rendering and the generated code -/

theorem toDigitsCore_ne_nil (f n : ℕ) (ds : List Char) (h : ds ≠ []) :
    Nat.toDigitsCore 10 f n ds ≠ [] := by
  induction f generalizing n ds with
  | zero => simpa [Nat.toDigitsCore] using h
  | succ f ih =>
    simp only [Nat.toDigitsCore]
    split_ifs
    · simp
    · exact ih _ _ (by simp)

theorem natRepr_ne_empty (n : ℕ) : Nat.repr n ≠ "" := by
  intro h
  have hd : Nat.toDigits 10 n = [] := by
    have := congrArg String.data h
    simpa [Nat.repr, List.asString] using this
  have hne : Nat.toDigitsCore 10 (n + 1) n [] ≠ [] := by
    simp only [Nat.toDigitsCore]
    split_ifs
    · simp
    · exact toDigitsCore_ne_nil _ _ _ (by simp)
  exact hne hd

theorem toString_int_ne_empty (n : ℤ) : toString n ≠ "" := by
  show Int.repr n ≠ ""
  cases n with
  | ofNat m => exact natRepr_ne_empty m
  | negSucc m =>
    intro h
    have hlen := congrArg String.length h
    simp [Int.repr, String.length_append] at hlen
    exact absurd hlen.1 (by decide)

theorem otpOfDraw_ne_empty (r : ℚ) : otpOfDraw r ≠ "" :=
  toString_int_ne_empty _

theorem isDouble_zero : isDouble 0 := by
  simp [isDouble, roundDouble]

theorem isDouble_natCast (n : ℕ) (h0 : 0 < n) (h : n < 2 ^ 53) : isDouble (n : ℚ) := by
  have hq : ((n : ℤ) : ℚ) / 2 ^ 0 = (n : ℚ) := by simp
  rw [← hq]
  apply isDouble_of_dyadic
  rw [hq]
  have hlt : (n : ℚ) < (2 : ℚ) ^ ((52 : ℤ) + 1) := by
    have : ((n : ℕ) : ℚ) < ((2 ^ 53 : ℕ) : ℚ) := by exact_mod_cast h
    norm_num at this ⊢
    exact this
  have := exponent_le (n : ℚ) 52 (by exact_mod_cast h0) hlt (by norm_num)
  simpa using this

theorem roundDouble_hundredThousand : roundDouble (100000 : ℚ) = 100000 := by
  have := isDouble_natCast 100000 (by norm_num) (by norm_num)
  simpa [isDouble] using this

theorem floor_hundredThousand : ⌊(100000 : ℚ)⌋ = 100000 := by
  have := @Int.floor_intCast ℚ _ _ 100000
  simp

theorem toString_hundredThousand : toString (100000 : ℤ) = "100000" := rfl

theorem floor_draw_zero : ⌊roundDouble (100000 + roundDouble (0 * 900000))⌋ = 100000 := by
  have h0 : roundDouble (0 : ℚ) = 0 := isDouble_zero
  rw [zero_mul, h0, add_zero, roundDouble_hundredThousand, floor_hundredThousand]

theorem otpOfDraw_eq (r : ℚ) (n : ℤ)
    (h : ⌊roundDouble (100000 + roundDouble (r * 900000))⌋ = n) : otpOfDraw r = toString n := by
  subst h; rfl

theorem otpOfDraw_zero_a : otpOfDraw 0 = toString (100000 : ℤ) :=
  otpOfDraw_eq 0 100000 floor_draw_zero

theorem otpOfDraw_zero : otpOfDraw 0 = "100000" :=
  otpOfDraw_zero_a.trans toString_hundredThousand

/-! ## The OTP registry -/

theorem getProp_of_own (store : OtpStore) (key c : String) (h : store key = some c) :
    getProp store key = .str c := by
  simp [getProp, h]

theorem getProp_not_str_of_none (store : OtpStore) (key : String) (h : store key = none) :
    getProp store key = .builtin ∨ getProp store key = .undefined := by
  unfold getProp
  rw [h]
  by_cases hk : key ∈ objectPrototypeKeys
  · left; simp [hk]
  · right; simp [hk]

theorem setProp_same (store : OtpStore) (key v : String)
    (h : key ≠ "__proto__" ∨ store key ≠ none) : setProp store key v key = some v := by
  unfold setProp
  rw [if_neg (by tauto)]
  simp

theorem deleteProp_same (store : OtpStore) (key : String) : deleteProp store key key = none := by
  simp [deleteProp]

theorem sendOtp_store (store : OtpStore) (email : Field) (r : ℚ) (mailOk : Bool)
    (he : falsy email = false) :
    (sendOtp store email r mailOk).2 = setProp store (toPropertyKey email) (otpOfDraw r) := by
  unfold sendOtp
  rw [he]
  cases mailOk <;> simp

theorem verifyOtp_accept (store : OtpStore) (email : Field) (c : String)
    (h : store (toPropertyKey email) = some c) (hc : c ≠ "") :
    verifyOtp store email (some c) = (otpVerified, deleteProp store (toPropertyKey email)) := by
  unfold verifyOtp
  rw [getProp_of_own store _ c h]
  simp [PropValue.truthy, PropValue.strictEq, hc]

theorem verifyOtp_reject_of_none (store : OtpStore) (email otp : Field)
    (h : store (toPropertyKey email) = none) :
    verifyOtp store email otp = (invalidOtp, store) := by
  unfold verifyOtp
  rcases getProp_not_str_of_none store _ h with hb | hu
  · rw [hb]; cases otp <;> simp [PropValue.truthy, PropValue.strictEq]
  · rw [hu]; simp [PropValue.truthy]

theorem verifyOtp_reject_of_ne (store : OtpStore) (email otp : Field) (c : String)
    (h : store (toPropertyKey email) = some c) (hne : otp ≠ some c) :
    verifyOtp store email otp = (invalidOtp, store) := by
  unfold verifyOtp
  rw [getProp_of_own store _ c h]
  cases otp with
  | none => simp [PropValue.strictEq]
  | some t =>
    have : c ≠ t := fun hct => hne (by rw [hct])
    simp [PropValue.strictEq, this]

theorem sendOtp_stores_iff (store : OtpStore) (email : Field) (r : ℚ) (mailOk : Bool)
    (he : falsy email = false) :
    (sendOtp store email r mailOk).2 (toPropertyKey email) = some (otpOfDraw r) ↔
      (toPropertyKey email ≠ "__proto__" ∨ store (toPropertyKey email) ≠ none) := by
  constructor
  · intro hst
    by_contra hcon
    push_neg at hcon
    rw [sendOtp_store store email r mailOk he] at hst
    unfold setProp at hst
    rw [if_pos ⟨hcon.2, hcon.1⟩, hcon.2] at hst
    exact absurd hst (by simp)
  · intro hk
    rw [sendOtp_store store email r mailOk he]
    exact setProp_same store _ _ hk

/-- C1: for every registry and every non-empty email, whenever `/send-otp`
has stored its code under that email, the next `/verify-otp` with the email
and that code answers 200 `OTP verified!` and removes the entry, and the same
request repeated answers 400 `Invalid OTP`. The code is stored for every
email except the string `__proto__` without an own entry, whose assignment is
swallowed by the inherited setter. -/
theorem issue_verify_once (store : OtpStore) (email : Field) (r : ℚ) (mailOk : Bool)
    (he : falsy email = false) :
    ((sendOtp store email r mailOk).2 (toPropertyKey email) = some (otpOfDraw r) ↔
        (toPropertyKey email ≠ "__proto__" ∨ store (toPropertyKey email) ≠ none)) ∧
      ((sendOtp store email r mailOk).2 (toPropertyKey email) = some (otpOfDraw r) →
        verifyOtp (sendOtp store email r mailOk).2 email (some (otpOfDraw r)) =
            (otpVerified,
              deleteProp (sendOtp store email r mailOk).2 (toPropertyKey email)) ∧
          otpVerified.status = 200 ∧
          deleteProp (sendOtp store email r mailOk).2 (toPropertyKey email)
            (toPropertyKey email) = none ∧
          verifyOtp (deleteProp (sendOtp store email r mailOk).2 (toPropertyKey email))
              email (some (otpOfDraw r)) =
            (invalidOtp,
              deleteProp (sendOtp store email r mailOk).2 (toPropertyKey email)) ∧
          invalidOtp.status = 400) := by
  refine ⟨sendOtp_stores_iff store email r mailOk he, ?_⟩
  intro hst
  refine ⟨?_, rfl, deleteProp_same _ _, ?_, rfl⟩
  · exact verifyOtp_accept _ email _ hst (otpOfDraw_ne_empty r)
  · exact verifyOtp_reject_of_none _ email _ (deleteProp_same _ _)

theorem issue_verify_once_witness :
    ((sendOtp emptyStore (some "a@x.com") 0 true).2 (toPropertyKey (some "a@x.com")) =
          some (otpOfDraw 0) ↔
        (toPropertyKey (some "a@x.com") ≠ "__proto__" ∨
          emptyStore (toPropertyKey (some "a@x.com")) ≠ none)) ∧
      ((sendOtp emptyStore (some "a@x.com") 0 true).2 (toPropertyKey (some "a@x.com")) =
          some (otpOfDraw 0) →
        verifyOtp (sendOtp emptyStore (some "a@x.com") 0 true).2 (some "a@x.com")
            (some (otpOfDraw 0)) =
            (otpVerified,
              deleteProp (sendOtp emptyStore (some "a@x.com") 0 true).2
                (toPropertyKey (some "a@x.com"))) ∧
          otpVerified.status = 200 ∧
          deleteProp (sendOtp emptyStore (some "a@x.com") 0 true).2
            (toPropertyKey (some "a@x.com")) (toPropertyKey (some "a@x.com")) = none ∧
          verifyOtp (deleteProp (sendOtp emptyStore (some "a@x.com") 0 true).2
              (toPropertyKey (some "a@x.com"))) (some "a@x.com") (some (otpOfDraw 0)) =
            (invalidOtp,
              deleteProp (sendOtp emptyStore (some "a@x.com") 0 true).2
                (toPropertyKey (some "a@x.com"))) ∧
          invalidOtp.status = 400) :=
  issue_verify_once emptyStore (some "a@x.com") 0 true (by decide)

theorem setProp_proto_empty (v : String) : setProp emptyStore "__proto__" v = emptyStore := by
  unfold setProp
  rw [if_pos ⟨rfl, rfl⟩]

theorem proto_mem_prototype : "__proto__" ∈ objectPrototypeKeys := by
  simp [objectPrototypeKeys]

theorem sendOtp_reply (store : OtpStore) (email : Field) (r : ℚ) (mailOk : Bool)
    (he : falsy email = false) :
    (sendOtp store email r mailOk).1 =
      if mailOk then .json 200 [("message", .str "OTP sent!")]
      else .json 500 [("error", .str "Failed to send OTP")] := by
  unfold sendOtp
  rw [he]
  cases mailOk <;> simp

theorem otpVerified_ne_invalidOtp : otpVerified ≠ invalidOtp := by decide

/-- The one address string for which `/send-otp` stores nothing: from the
empty registry, `/send-otp` for `__proto__` answers that the code was sent,
the registry stays empty, and `/verify-otp` with that address and the
generated code `100000` answers 400 `Invalid OTP`. -/
theorem proto_address_code_rejected :
    (sendOtp emptyStore (some "__proto__") 0 true).1 =
        .json 200 [("message", .str "OTP sent!")] ∧
      otpOfDraw 0 = "100000" ∧
      (sendOtp emptyStore (some "__proto__") 0 true).2 = emptyStore ∧
      verifyOtp (sendOtp emptyStore (some "__proto__") 0 true).2 (some "__proto__")
          (some (otpOfDraw 0)) = (invalidOtp, emptyStore) ∧
      invalidOtp.status = 400 := by
  have he : falsy (some "__proto__") = false := by decide
  have hs : (sendOtp emptyStore (some "__proto__") 0 true).2 = emptyStore := by
    rw [sendOtp_store _ _ _ _ he]
    exact setProp_proto_empty _
  refine ⟨?_, otpOfDraw_zero, hs, ?_, rfl⟩
  · rw [sendOtp_reply _ _ _ _ he]; rfl
  · rw [hs]
    exact verifyOtp_reject_of_none emptyStore (some "__proto__") _ rfl

/-- C2: a failing `/verify-otp` (status 400) returns the registry exactly as
it was, so a non-empty code pending for that email is accepted by the next
`/verify-otp`; and the request does fail whenever the email has no entry or
the entry differs from the supplied code. -/
theorem verify_failure_keeps_registry (store : OtpStore) (email otp : Field)
    (h : (verifyOtp store email otp).1 = invalidOtp) :
    (verifyOtp store email otp).2 = store ∧
      (∀ c, store (toPropertyKey email) = some c → c ≠ "" →
        verifyOtp (verifyOtp store email otp).2 email (some c) =
          (otpVerified, deleteProp store (toPropertyKey email))) ∧
      (∀ email1 otp1, (store (toPropertyKey email1) = none ∨
          ∃ c, store (toPropertyKey email1) = some c ∧ otp1 ≠ some c) →
        verifyOtp store email1 otp1 = (invalidOtp, store)) := by
  have hs : (verifyOtp store email otp).2 = store := by
    unfold verifyOtp at h ⊢
    split_ifs at h ⊢ with hc
    · exact absurd h otpVerified_ne_invalidOtp
    · rfl
  refine ⟨hs, ?_, ?_⟩
  · intro c hc hne
    rw [hs]
    exact verifyOtp_accept store email c hc hne
  · intro email1 otp1 hcase
    rcases hcase with hn | ⟨c, hc, hne⟩
    · exact verifyOtp_reject_of_none store email1 otp1 hn
    · exact verifyOtp_reject_of_ne store email1 otp1 c hc hne

theorem sampleStore_pending : sampleStore (toPropertyKey (some "a@x.com")) = some "654321" := by
  simp [sampleStore, toPropertyKey]

theorem verify_failure_keeps_registry_witness :
    (verifyOtp sampleStore (some "a@x.com") (some "000000")).2 = sampleStore ∧
      (∀ c, sampleStore (toPropertyKey (some "a@x.com")) = some c → c ≠ "" →
        verifyOtp (verifyOtp sampleStore (some "a@x.com") (some "000000")).2
            (some "a@x.com") (some c) =
          (otpVerified, deleteProp sampleStore (toPropertyKey (some "a@x.com")))) ∧
      (∀ email1 otp1, (sampleStore (toPropertyKey email1) = none ∨
          ∃ c, sampleStore (toPropertyKey email1) = some c ∧ otp1 ≠ some c) →
        verifyOtp sampleStore email1 otp1 = (invalidOtp, sampleStore)) :=
  verify_failure_keeps_registry sampleStore (some "a@x.com") (some "000000")
    (by
      rw [verifyOtp_reject_of_ne sampleStore (some "a@x.com") (some "000000") "654321"
        sampleStore_pending (by decide)])

/-- C9: when `email` has a pending code `c1` and `/send-otp` draws a different
code, the registry afterwards holds the new code under that email and nothing
else changed; `/verify-otp` with the old code fails and leaves the registry
as it is, and `/verify-otp` with the new code then succeeds and removes it. -/
theorem reissue_replaces_code (store : OtpStore) (email : Field) (r : ℚ) (mailOk : Bool)
    (c1 : String) (he : falsy email = false)
    (h1 : store (toPropertyKey email) = some c1) (hne : otpOfDraw r ≠ c1) :
    (sendOtp store email r mailOk).2 (toPropertyKey email) = some (otpOfDraw r) ∧
      (∀ k, k ≠ toPropertyKey email → (sendOtp store email r mailOk).2 k = store k) ∧
      verifyOtp (sendOtp store email r mailOk).2 email (some c1) =
        (invalidOtp, (sendOtp store email r mailOk).2) ∧
      verifyOtp (verifyOtp (sendOtp store email r mailOk).2 email (some c1)).2 email
          (some (otpOfDraw r)) =
        (otpVerified,
          deleteProp (sendOtp store email r mailOk).2 (toPropertyKey email)) := by
  have hown : store (toPropertyKey email) ≠ none := by rw [h1]; simp
  have hnew : (sendOtp store email r mailOk).2 (toPropertyKey email) = some (otpOfDraw r) := by
    rw [sendOtp_store store email r mailOk he]
    exact setProp_same store _ _ (Or.inr hown)
  have hold : verifyOtp (sendOtp store email r mailOk).2 email (some c1) =
      (invalidOtp, (sendOtp store email r mailOk).2) :=
    verifyOtp_reject_of_ne _ email (some c1) (otpOfDraw r) hnew
      (fun hc => hne (Option.some.inj hc).symm)
  refine ⟨hnew, ?_, hold, ?_⟩
  · intro k hk
    rw [sendOtp_store store email r mailOk he]
    unfold setProp
    rw [if_neg (fun hh => hown hh.1)]
    simp [hk]
  · rw [hold]
    exact verifyOtp_accept _ email _ hnew (otpOfDraw_ne_empty r)

theorem reissue_replaces_code_witness :
    (sendOtp sampleStore (some "a@x.com") 0 true).2 (toPropertyKey (some "a@x.com")) =
        some (otpOfDraw 0) ∧
      (∀ k, k ≠ toPropertyKey (some "a@x.com") →
        (sendOtp sampleStore (some "a@x.com") 0 true).2 k = sampleStore k) ∧
      verifyOtp (sendOtp sampleStore (some "a@x.com") 0 true).2 (some "a@x.com")
          (some "654321") =
        (invalidOtp, (sendOtp sampleStore (some "a@x.com") 0 true).2) ∧
      verifyOtp (verifyOtp (sendOtp sampleStore (some "a@x.com") 0 true).2
          (some "a@x.com") (some "654321")).2 (some "a@x.com") (some (otpOfDraw 0)) =
        (otpVerified,
          deleteProp (sendOtp sampleStore (some "a@x.com") 0 true).2
            (toPropertyKey (some "a@x.com"))) :=
  reissue_replaces_code sampleStore (some "a@x.com") 0 true "654321" (by decide)
    sampleStore_pending (by rw [otpOfDraw_zero]; decide)

/-- C10, at a registry reached by one `/send-otp` request for the address
string `undefined`: a `/verify-otp` request without an email field reads
`otpStore[undefined]`, finds the code pending under the key `undefined`,
answers 200 `OTP verified!` and deletes the entry. -/
theorem missing_email_accepted :
    Reachable (sendOtp emptyStore (some "undefined") 0 true).2 ∧
      (sendOtp emptyStore (some "undefined") 0 true).2 "undefined" = some "100000" ∧
      (verifyOtp (sendOtp emptyStore (some "undefined") 0 true).2 none
          (some "100000")).1 = otpVerified ∧
      otpVerified.status = 200 ∧
      (verifyOtp (sendOtp emptyStore (some "undefined") 0 true).2 none
          (some "100000")).2 "undefined" = none := by
  have he : falsy (some "undefined") = false := by decide
  have hs : (sendOtp emptyStore (some "undefined") 0 true).2 "undefined" = some "100000" := by
    rw [sendOtp_store _ _ _ _ he, otpOfDraw_zero]
    exact setProp_same emptyStore "undefined" "100000" (Or.inl (by decide))
  have hv := verifyOtp_accept (sendOtp emptyStore (some "undefined") 0 true).2 none
    "100000" hs (by decide)
  refine ⟨Reachable.send _ _ _ _ Reachable.init isDouble_zero le_rfl (by norm_num), hs, ?_,
    rfl, ?_⟩
  · rw [hv]
  · rw [hv]
    exact deleteProp_same (sendOtp emptyStore (some "undefined") 0 true).2 "undefined"

/-! ## Register and login -/

theorem falsy_some (s : String) (h : s ≠ "") : falsy (some s) = false := by
  simp [falsy, h]

theorem findOne_isSome_of_mem (db : Collection) (u : String)
    (h : ∃ s ∈ db, s.username = u) : ∃ s, findOne db u = some s := by
  obtain ⟨s, hs, hsu⟩ := h
  cases hf : findOne db u with
  | some t => exact ⟨t, rfl⟩
  | none =>
    unfold findOne at hf
    rw [List.find?_eq_none] at hf
    have := hf s hs
    simp [hsu] at this

theorem findOne_some_spec (db : Collection) (u : String) (s : Student)
    (h : findOne db u = some s) : s ∈ db ∧ s.username = u := by
  unfold findOne at h
  refine ⟨List.mem_of_find?_eq_some h, ?_⟩
  have := List.find?_some h
  simpa using this

theorem findOne_none_of_fresh (db : Collection) (u : String)
    (h : ∀ s ∈ db, s.username ≠ u) : findOne db u = none := by
  unfold findOne
  rw [List.find?_eq_none]
  intro s hs
  simpa using h s hs

theorem findOne_append_new (db : Collection) (doc : Student)
    (h : ∀ s ∈ db, s.username ≠ doc.username) :
    findOne (db ++ [doc]) doc.username = some doc := by
  have hn := findOne_none_of_fresh db doc.username h
  unfold findOne at hn ⊢
  rw [List.find?_append, hn]
  simp

/-- C3: when the collection, which meets the schema constraints, already
holds a document with username `u`, `/register` with that username and any
non-empty password and email answers 409 `Username already exists` and leaves
the collection unchanged, whether or not the email is stored already. -/
theorem register_existing_username_conflict (H : Hasher) (db : Collection)
    (u p e salt : String) (hv : validCollection db) (hu : ∃ s ∈ db, s.username = u)
    (hp : p ≠ "") (he : e ≠ "") :
    register H db (some u) (some p) (some e) salt =
      (.json 409 [("error", .str "Username already exists")], db) := by
  have hune : u ≠ "" := by
    obtain ⟨s, hs, hsu⟩ := hu
    rw [← hsu]
    exact (hv.1 s hs).1
  obtain ⟨t, ht⟩ := findOne_isSome_of_mem db u hu
  unfold register
  simp [falsy_some u hune, falsy_some p hp, falsy_some e he, toPropertyKey, ht]

theorem register_existing_username_conflict_witness :
    register markerHasher [⟨"alice", "#pw123", "a@x.com"⟩] (some "alice") (some "other")
        (some "b@x.com") "salt" =
      (.json 409 [("error", .str "Username already exists")],
        [⟨"alice", "#pw123", "a@x.com"⟩]) :=
  register_existing_username_conflict markerHasher [⟨"alice", "#pw123", "a@x.com"⟩]
    "alice" "other" "b@x.com" "salt" (by decide) ⟨_, List.mem_singleton.mpr rfl, rfl⟩
    (by decide) (by decide)

/-- C4, at a duplicate email: with `a@x.com` stored for `alice` and no
document for `bob`, `/register` of `bob` with that email inserts nothing, but
the duplicate-key error of `save()` is answered with status 500
`Server error`, not with the 409 the handler gives a duplicate username. -/
theorem duplicate_email_is_not_conflict :
    validCollection [⟨"alice", "#pw123", "a@x.com"⟩] ∧
      findOne [⟨"alice", "#pw123", "a@x.com"⟩] "bob" = none ∧
      register markerHasher [⟨"alice", "#pw123", "a@x.com"⟩] (some "bob") (some "pw456")
          (some "a@x.com") "salt" =
        (.json 500 [("error", .str "Server error")], [⟨"alice", "#pw123", "a@x.com"⟩]) ∧
      ¬ (register markerHasher [⟨"alice", "#pw123", "a@x.com"⟩] (some "bob") (some "pw456")
        (some "a@x.com") "salt").1.status = 409 ∧
      (register markerHasher [⟨"alice", "#pw123", "a@x.com"⟩] (some "alice") (some "pw456")
        (some "b@x.com") "salt").1.status = 409 := by
  refine ⟨by decide, by decide, ?_, ?_, ?_⟩ <;> decide

/-- Whenever the collection holds a document with email `e` and none with
username `u`, `/register` with non-empty fields inserts nothing and the
duplicate-key error thrown by `save()` is answered with status 500
`Server error`. -/
theorem register_existing_email_server_error (H : Hasher) (db : Collection)
    (u p e salt : String) (hex : ∃ s ∈ db, s.email = e) (hfresh : ∀ s ∈ db, s.username ≠ u)
    (hu : u ≠ "") (hp : p ≠ "") (he : e ≠ "") :
    save db ⟨u, H.hash p 10 salt, e⟩ = .error .duplicateKey ∧
      register H db (some u) (some p) (some e) salt =
        (.json 500 [("error", .str "Server error")], db) := by
  have hsave : save db ⟨u, H.hash p 10 salt, e⟩ = .error .duplicateKey := by
    unfold save
    rw [if_neg (by simp [hu, he, H.hash_ne p 10 salt])]
    rw [if_pos]
    obtain ⟨s, hs, hse⟩ := hex
    rw [List.any_eq_true]
    exact ⟨s, hs, by simp [hse]⟩
  refine ⟨hsave, ?_⟩
  unfold register
  simp [falsy_some u hu, falsy_some p hp, falsy_some e he, toPropertyKey,
    findOne_none_of_fresh db u hfresh, hsave]

theorem valueFalsy_str (s : String) (h : s ≠ "") : (Value.str s).falsy = false := by
  simp [Value.falsy, h]

/-- With a string password, `/login` with an existing username whose stored
hash does not match and `/login` with a non-empty username that is not in the
collection send the same reply, 401 `Invalid username or password`. -/
theorem login_failures_identical (H : Hasher) (db : Collection) (u u2 p : String)
    (s : Student) (hv : validCollection db) (hf : findOne db u = some s)
    (hm : H.compare p s.password = false) (hu2 : u2 ≠ "") (hn : findOne db u2 = none)
    (hp : p ≠ "") :
    login H db (some u) (.str p) = login H db (some u2) (.str p) ∧
      login H db (some u) (.str p) = .send 401 "Invalid username or password" := by
  obtain ⟨hmem, hsu⟩ := findOne_some_spec db u s hf
  have hune : u ≠ "" := by rw [← hsu]; exact (hv.1 s hmem).1
  have h1 : login H db (some u) (.str p) = .send 401 "Invalid username or password" := by
    unfold login
    simp [falsy_some u hune, valueFalsy_str p hp, toPropertyKey, hf, bcryptCompare, hm]
  have h2 : login H db (some u2) (.str p) = .send 401 "Invalid username or password" := by
    unfold login
    simp [falsy_some u2 hu2, valueFalsy_str p hp, toPropertyKey, hn]
  exact ⟨h1.trans h2.symm, h1⟩

theorem valueFalsy_num (q : ℚ) (h : q ≠ 0) : (Value.num q).falsy = false := by
  simp [Value.falsy, h]

/-- With a truthy password that is not a string, `/login` answers 500
`Server error` when the username exists and 401 when it does not. -/
theorem login_nonstring_password (H : Hasher) (db : Collection) (u : String) (v : Value)
    (hu : u ≠ "") (hv : v.falsy = false) (hns : ∀ p, v ≠ .str p) :
    login H db (some u) v =
      if (findOne db u).isSome then .send 500 "Server error"
      else .send 401 "Invalid username or password" := by
  have hb : ∀ h, bcryptCompare H v h = none := by
    intro h
    cases v with
    | str p => exact absurd rfl (hns p)
    | undefined => rfl
    | null => rfl
    | bool b => rfl
    | num q => rfl
  unfold login
  cases hf : findOne db u with
  | none => simp [falsy_some u hu, hv, toPropertyKey, hf]
  | some s => simp [falsy_some u hu, hv, toPropertyKey, hf, hb]

/-- C5, at the numeric password 123: with `alice` stored under a hash that
does not match, `/login` as `alice` reaches `bcrypt.compare`, which rejects a
number, and is answered 500 `Server error`, while `/login` with the unknown
username `nobody` and the same password is answered 401
`Invalid username or password`. The two replies differ. -/
theorem login_number_password_differs :
    validCollection [⟨"alice", "#pw123", "a@x.com"⟩] ∧
      findOne [⟨"alice", "#pw123", "a@x.com"⟩] "alice" = some ⟨"alice", "#pw123", "a@x.com"⟩ ∧
      findOne [⟨"alice", "#pw123", "a@x.com"⟩] "nobody" = none ∧
      (Value.num 123).falsy = false ∧
      login markerHasher [⟨"alice", "#pw123", "a@x.com"⟩] (some "alice") (.num 123) =
        .send 500 "Server error" ∧
      login markerHasher [⟨"alice", "#pw123", "a@x.com"⟩] (some "nobody") (.num 123) =
        .send 401 "Invalid username or password" ∧
      login markerHasher [⟨"alice", "#pw123", "a@x.com"⟩] (some "alice") (.num 123) ≠
        login markerHasher [⟨"alice", "#pw123", "a@x.com"⟩] (some "nobody") (.num 123) := by
  have hf : (Value.num 123).falsy = false := valueFalsy_num 123 (by norm_num)
  have h1 := login_nonstring_password markerHasher [⟨"alice", "#pw123", "a@x.com"⟩]
    "alice" (.num 123) (by decide) hf (by intro p h; cases h)
  have h2 := login_nonstring_password markerHasher [⟨"alice", "#pw123", "a@x.com"⟩]
    "nobody" (.num 123) (by decide) hf (by intro p h; cases h)
  have ha : findOne [⟨"alice", "#pw123", "a@x.com"⟩] "alice" =
      some ⟨"alice", "#pw123", "a@x.com"⟩ := by decide
  have hn : findOne [⟨"alice", "#pw123", "a@x.com"⟩] "nobody" = none := by decide
  rw [ha] at h1
  rw [hn] at h2
  simp only [Option.isSome_some, Option.isSome_none, if_true] at h1 h2
  refine ⟨by decide, ha, hn, hf, h1, ?_, ?_⟩
  · simpa using h2
  · rw [h1]
    have h2b : login markerHasher [⟨"alice", "#pw123", "a@x.com"⟩] (some "nobody") (.num 123)
        = .send 401 "Invalid username or password" := by simpa using h2
    rw [h2b]
    decide

/-- C6: when no stored document has username `u` or email `e` and all three
fields are non-empty, `/register` answers 200 and appends the document
`(u, hash p, e)`; provided `compare` accepts a plaintext against its own hash,
the following `/login` with `u` and `p` redirects to `/dashboard`. -/
theorem register_then_login (H : Hasher) (db : Collection) (u p e salt : String)
    (hcmp : ∀ q n t, H.compare q (H.hash q n t) = true)
    (hfresh : ∀ s ∈ db, s.username ≠ u ∧ s.email ≠ e)
    (hu : u ≠ "") (hp : p ≠ "") (he : e ≠ "") :
    register H db (some u) (some p) (some e) salt =
        (.json 200 [("message", .str "Registration successful!")],
          db ++ [⟨u, H.hash p 10 salt, e⟩]) ∧
      login H (register H db (some u) (some p) (some e) salt).2 (some u) (.str p) =
        .redirect 302 "/dashboard" := by
  have hsave : save db ⟨u, H.hash p 10 salt, e⟩ = .ok (db ++ [⟨u, H.hash p 10 salt, e⟩]) := by
    unfold save
    rw [if_neg (by simp [hu, he, H.hash_ne p 10 salt])]
    rw [if_neg]
    rw [List.any_eq_true]
    rintro ⟨s, hs, hdup⟩
    have := hfresh s hs
    simp [this.1, this.2] at hdup
  have hreg : register H db (some u) (some p) (some e) salt =
      (.json 200 [("message", .str "Registration successful!")],
        db ++ [⟨u, H.hash p 10 salt, e⟩]) := by
    unfold register
    simp [falsy_some u hu, falsy_some p hp, falsy_some e he, toPropertyKey,
      findOne_none_of_fresh db u (fun s hs => (hfresh s hs).1), hsave]
  refine ⟨hreg, ?_⟩
  rw [hreg]
  have hfind := findOne_append_new db ⟨u, H.hash p 10 salt, e⟩ (fun s hs => (hfresh s hs).1)
  unfold login
  simp [falsy_some u hu, valueFalsy_str p hp, toPropertyKey]
  simp at hfind
  rw [hfind]
  simp [bcryptCompare, hcmp]

theorem register_then_login_witness :
    register markerHasher [] (some "alice") (some "pw123") (some "a@x.com") "salt" =
        (.json 200 [("message", .str "Registration successful!")],
          [] ++ [⟨"alice", markerHasher.hash "pw123" 10 "salt", "a@x.com"⟩]) ∧
      login markerHasher
          (register markerHasher [] (some "alice") (some "pw123") (some "a@x.com") "salt").2
          (some "alice") (.str "pw123") =
        .redirect 302 "/dashboard" :=
  register_then_login markerHasher [] "alice" "pw123" "a@x.com" "salt"
    (by intro q n t; simp [markerHasher]) (by intro s hs; cases hs)
    (by decide) (by decide) (by decide)

/-! ## The range of generated codes -/

theorem otpOfDraw_eq_six (r : ℚ) (hd : isDouble r) (h0 : 0 ≤ r) (h1 : r < 1) :
    ∃ n : ℕ, 100000 ≤ n ∧ n ≤ 999999 ∧
      otpOfDraw r = String.mk
        [Nat.digitChar (n / 100000), Nat.digitChar (n / 10000 % 10),
         Nat.digitChar (n / 1000 % 10), Nat.digitChar (n / 100 % 10),
         Nat.digitChar (n / 10 % 10), Nat.digitChar (n % 10)] := by
  obtain ⟨hlo, hhi⟩ := floor_bounds r hd h0 h1
  refine ⟨⌊roundDouble (100000 + roundDouble (r * 900000))⌋.toNat, by omega, by omega, ?_⟩
  rw [otpOfDraw_eq r _ rfl]
  exact toString_six _ hlo hhi

/-- C7: for every double `r` with `0 ≤ r < 1`, the code computed by
`/send-otp` has exactly six characters and each of them is a decimal digit. -/
theorem otp_six_digits (r : ℚ) (hd : isDouble r) (h0 : 0 ≤ r) (h1 : r < 1) :
    (otpOfDraw r).length = 6 ∧ ∀ c ∈ (otpOfDraw r).data, c.isDigit = true := by
  obtain ⟨n, hlo, hhi, hs⟩ := otpOfDraw_eq_six r hd h0 h1
  rw [hs]
  refine ⟨rfl, ?_⟩
  intro c hc
  simp only [List.mem_cons, List.mem_singleton, List.not_mem_nil, or_false] at hc
  rcases hc with h | h | h | h | h | h <;> rw [h] <;> apply digitChar_isDigit <;> omega

theorem otp_six_digits_witness :
    (otpOfDraw 0).length = 6 ∧ ∀ c ∈ (otpOfDraw 0).data, c.isDigit = true :=
  otp_six_digits 0 isDouble_zero le_rfl (by norm_num)

/-- C8 as stated fails: no draw makes `/send-otp` compute the string `000000`. -/
theorem no_draw_gives_zeros :
    ¬ ∃ r : ℚ, isDouble r ∧ 0 ≤ r ∧ r < 1 ∧ otpOfDraw r = "000000" := by
  rintro ⟨r, hd, h0, h1, hz⟩
  obtain ⟨n, hlo, hhi, hs⟩ := otpOfDraw_eq_six r hd h0 h1
  rw [hs] at hz
  have hdata := congrArg String.data hz
  have hhead : Nat.digitChar (n / 100000) = '0' := by
    have := congrArg List.head? hdata
    simpa using this
  exact digitChar_ne_zero (n / 100000) (by omega) (by omega) hhead

/-- C8, amended: the codes range over 100000 to 999999. For every integer `n`
in that range some double `r` with `0 ≤ r < 1` makes `/send-otp` store exactly
the decimal string of `n`, and every such draw yields the decimal string of an
integer in that range. -/
theorem otp_codes_range (n : ℤ) (h0 : 100000 ≤ n) (h1 : n ≤ 999999) :
    (∃ r : ℚ, isDouble r ∧ 0 ≤ r ∧ r < 1 ∧ otpOfDraw r = toString n ∧
        ∀ (store : OtpStore) (email : Field) (mailOk : Bool), falsy email = false →
          (sendOtp store email r mailOk).2 =
            setProp store (toPropertyKey email) (toString n)) ∧
      ∀ r : ℚ, isDouble r → 0 ≤ r → r < 1 →
        ∃ m : ℤ, 100000 ≤ m ∧ m ≤ 999999 ∧ otpOfDraw r = toString m := by
  constructor
  · obtain ⟨r, hd, hr0, hr1, hfl⟩ := draw_exists n h0 h1
    have hcode := otpOfDraw_eq r n hfl
    refine ⟨r, hd, hr0, hr1, hcode, ?_⟩
    intro store email mailOk he
    rw [sendOtp_store store email r mailOk he, hcode]
  · intro r hd hr0 hr1
    obtain ⟨hlo, hhi⟩ := floor_bounds r hd hr0 hr1
    exact ⟨_, hlo, hhi, otpOfDraw_eq r _ rfl⟩

theorem otp_codes_range_witness :
    (∃ r : ℚ, isDouble r ∧ 0 ≤ r ∧ r < 1 ∧ otpOfDraw r = toString (123456 : ℤ) ∧
        ∀ (store : OtpStore) (email : Field) (mailOk : Bool), falsy email = false →
          (sendOtp store email r mailOk).2 =
            setProp store (toPropertyKey email) (toString (123456 : ℤ))) ∧
      ∀ r : ℚ, isDouble r → 0 ≤ r → r < 1 →
        ∃ m : ℤ, 100000 ≤ m ∧ m ≤ 999999 ∧ otpOfDraw r = toString m :=
  otp_codes_range 123456 (by norm_num) (by norm_num)

end Collage
